import Mathlib

/-!
Shallow embedding of the awx-inventory controller
(repository fl64/ansible-demo, directory awx-inventory/).

The embedding follows the Go source:
  * internal/controller/controller.go — reconciliation engine, namespace
    inventory cache, watch-event classification;
  * internal/kubernetes/client.go     — watch loop (WatchVMs) and the
    conversion from unstructured objects to VirtualMachine records;
  * internal/awx/client.go            — the AWX HTTP client.

Machine integers of Go (`int`) are modelled as `Int`; Go maps that are
only inserted into after a missed lookup are modelled as association
lists with lookup-first semantics; fallible Go functions returning
`(T, error)` are modelled as `Except String T`.  Outbound calls to the
AWX gateway are recorded in an explicit call log so that the
specification's statements about "calls to the InventoryGateway" can be
stated as facts about that log.
-/

namespace AwxInventory

/-! ## Data model (internal/kubernetes/client.go) -/

/-- `kubernetes.VirtualMachine`: one VM record as decoded from a watch
event.  Field `nsName` embeds the Go field `Namespace` (renamed because
`namespace` is a Lean keyword); `labels` is the Go `map[string]string`
as an association list. -/
structure VirtualMachine where
  name : String
  nsName : String
  ip : String
  labels : List (String × String)
deriving Repr, DecidableEq

/-- An unstructured Kubernetes object as far as the controller reads it:
the `metadata.namespace`, `metadata.name`, `status.ipAddress` fields
(each possibly absent, matching `unstructured.NestedString`'s `found`
flag) and `metadata.labels`. -/
structure KObject where
  metaNamespace : Option String
  metaName : Option String
  statusIpAddress : Option String
  metaLabels : Option (List (String × String))
deriving Repr, DecidableEq

/-- `kubernetes.UnstructuredToVM`: absent fields decode to the empty
string (Go's zero value) and absent labels to the empty map. -/
def unstructuredToVM (obj : KObject) : VirtualMachine :=
  { name := obj.metaName.getD ""
    nsName := obj.metaNamespace.getD ""
    ip := obj.statusIpAddress.getD ""
    labels := obj.metaLabels.getD [] }

/-- The `k8s.io/apimachinery/pkg/watch` event types.  `evErr` embeds
`watch.Error`. -/
inductive EventType
  | added
  | modified
  | deleted
  | bookmark
  | evErr
deriving Repr, DecidableEq

/-! ## Gateway boundary -/

/-- The host variables document built in `controller.handleVMAdded`:
`map[string]interface{}{"vm_name": …, "vm_namespace": …, "labels": …,
"ansible_host": …}`. -/
structure HostVars where
  vm_name : String
  vm_namespace : String
  labels : List (String × String)
  ansible_host : String
deriving Repr, DecidableEq

/-- One outbound call from the controller to the AWX gateway
(`awx.Client` methods used by controller.go), with its arguments. -/
inductive GCall
  | getOrganizationID (orgName : String)
  | getInventoryID (invName : String)
  | createInventory (invName : String) (orgId : Int)
  | createOrUpdateHost (invId : Int) (hostName : String) (vars : HostVars)
  | deleteHost (invId : Int) (hostName : String)
deriving Repr, DecidableEq

/-- Responses of the AWX gateway as seen by the controller: one
`Except`-valued response per operation.  `getInventoryID` returning
`.ok 0` means "no inventory of that name" (awx.GetInventoryID returns
`(0, nil)` when the result list is empty). -/
structure AwxResponses where
  getOrganizationID : String → Except String Int
  getInventoryID : String → Except String Int
  createInventory : String → Int → Except String Int
  createOrUpdateHost : Int → String → HostVars → Except String Unit
  deleteHost : Int → String → Except String Unit

/-! ## Controller (internal/controller/controller.go) -/

/-- Controller configuration: the organization name and the inventory
name prefix.  Field `pfx` embeds the Go field `Controller.prefix`. -/
structure Config where
  organization : String
  pfx : String
deriving Repr, DecidableEq

/-- The namespace → inventory-id cache (`Controller.inventoryCache`,
a Go `map[string]int`), as an association list: lookups take the first
binding, and insertions (which in the source happen only after a missed
lookup) push a new binding in front. -/
abbrev Cache := List (String × Int)

/-- Lookup in the namespace → inventory-id cache
(`invID, exists := c.inventoryCache[namespace]`). -/
def cacheLookup : Cache → String → Option Int
  | [], _ => none
  | (k, v) :: rest, ns => if k = ns then some v else cacheLookup rest ns

/-- The target inventory name computed in
`getOrCreateInventoryForNamespace`:
`fmt.Sprintf("%s %s", c.prefix, namespace)` when the prefix is
non-empty, otherwise the bare namespace. -/
def inventoryName (cfg : Config) (ns : String) : String :=
  if cfg.pfx ≠ "" then cfg.pfx ++ " " ++ ns else ns

/-- Result of one controller-level operation: the Go return value, the
cache as left behind (the Go receiver is mutable), and the log of
gateway calls issued. -/
structure ResolveResult where
  res : Except String Int
  cache : Cache
  calls : List GCall
deriving Repr

/-- `Controller.getOrCreateInventoryForNamespace`: cache hit returns the
cached id with no gateway call; on a miss it fetches the organization
id, looks the inventory up by name, creates it when the lookup returns
0, and caches the id before returning.  Error returns leave the cache
unchanged (the Go code only writes the cache after full success). -/
def getOrCreateInventoryForNamespace (aw : AwxResponses) (cfg : Config)
    (cache : Cache) (ns : String) : ResolveResult :=
  match cacheLookup cache ns with
  | some invID => ⟨.ok invID, cache, []⟩
  | none =>
    let nm := inventoryName cfg ns
    match aw.getOrganizationID cfg.organization with
    | .error e =>
        ⟨.error ("failed to get organization ID: " ++ e), cache,
          [.getOrganizationID cfg.organization]⟩
    | .ok orgID =>
      match aw.getInventoryID nm with
      | .error e =>
          ⟨.error ("failed to get inventory ID: " ++ e), cache,
            [.getOrganizationID cfg.organization, .getInventoryID nm]⟩
      | .ok invID =>
        if invID = 0 then
          match aw.createInventory nm orgID with
          | .error e =>
              ⟨.error ("failed to create inventory: " ++ e), cache,
                [.getOrganizationID cfg.organization, .getInventoryID nm,
                  .createInventory nm orgID]⟩
          | .ok newID =>
              ⟨.ok newID, (ns, newID) :: cache,
                [.getOrganizationID cfg.organization, .getInventoryID nm,
                  .createInventory nm orgID]⟩
        else
          ⟨.ok invID, (ns, invID) :: cache,
            [.getOrganizationID cfg.organization, .getInventoryID nm]⟩

/-- Result of a watch-event handler: the returned `error` value, the
cache afterwards, and the gateway calls issued. -/
structure HandleResult where
  res : Except String Unit
  cache : Cache
  calls : List GCall
deriving Repr

/-- `Controller.handleVMAdded` (used for ADDED and MODIFIED events):
resolve the inventory for the VM's namespace, then create-or-update the
host with the four-field variables document. -/
def handleVMAdded (aw : AwxResponses) (cfg : Config) (cache : Cache)
    (vm : VirtualMachine) : HandleResult :=
  let r := getOrCreateInventoryForNamespace aw cfg cache vm.nsName
  match r.res with
  | .error e =>
      ⟨.error ("failed to get inventory for namespace: " ++ e), r.cache, r.calls⟩
  | .ok invID =>
    let hostVars : HostVars := ⟨vm.name, vm.nsName, vm.labels, vm.ip⟩
    match aw.createOrUpdateHost invID vm.name hostVars with
    | .error e =>
        ⟨.error e, r.cache, r.calls ++ [.createOrUpdateHost invID vm.name hostVars]⟩
    | .ok _ =>
        ⟨.ok (), r.cache, r.calls ++ [.createOrUpdateHost invID vm.name hostVars]⟩

/-- `Controller.handleVMDeleted` (used for DELETED events): resolve —
or create — the inventory for the namespace, then delete the host by
name. -/
def handleVMDeleted (aw : AwxResponses) (cfg : Config) (cache : Cache)
    (ns name : String) : HandleResult :=
  let r := getOrCreateInventoryForNamespace aw cfg cache ns
  match r.res with
  | .error e =>
      ⟨.error ("failed to get inventory for namespace: " ++ e), r.cache, r.calls⟩
  | .ok invID =>
    match aw.deleteHost invID name with
    | .error e => ⟨.error e, r.cache, r.calls ++ [.deleteHost invID name]⟩
    | .ok _ => ⟨.ok (), r.cache, r.calls ++ [.deleteHost invID name]⟩

/-- `Controller.handleWatchEvent`: return nil when `metadata.namespace`
or `metadata.name` is missing; for ADDED/MODIFIED skip VMs with an
empty IP, otherwise run `handleVMAdded`; for DELETED run
`handleVMDeleted`; for any other event type log and return nil. -/
def handleWatchEvent (aw : AwxResponses) (cfg : Config) (cache : Cache)
    (evType : EventType) (obj : KObject) : HandleResult :=
  match obj.metaNamespace with
  | none => ⟨.ok (), cache, []⟩
  | some ns =>
    match obj.metaName with
    | none => ⟨.ok (), cache, []⟩
    | some nm =>
      match evType with
      | .added =>
        let vm := unstructuredToVM obj
        if vm.ip = "" then ⟨.ok (), cache, []⟩
        else handleVMAdded aw cfg cache vm
      | .modified =>
        let vm := unstructuredToVM obj
        if vm.ip = "" then ⟨.ok (), cache, []⟩
        else handleVMAdded aw cfg cache vm
      | .deleted => handleVMDeleted aw cfg cache ns nm
      | .bookmark => ⟨.ok (), cache, []⟩
      | .evErr => ⟨.ok (), cache, []⟩

/-! ## Watch loop (kubernetes.WatchVMs, controller.Run) -/

/-- One item observed by the select loop in `kubernetes.WatchVMs`:
the context is cancelled, the result channel is closed, an event whose
object is not `*unstructured.Unstructured` (skipped by `continue`), or
a well-typed event delivered to the handler. -/
inductive WatchItem
  | cancelled
  | chanClosed
  | badObject
  | msg (evType : EventType) (obj : KObject)
deriving Repr, DecidableEq

/-- How the watch loop ends: `ctxDone` — returned `ctx.Err()` after
cancellation; `handlerErr e` — the per-event handler returned an error
and `WatchVMs` returned it; `running` — the modelled item list is
exhausted while the loop is still blocked on the channel. -/
inductive WatchOutcome
  | ctxDone
  | handlerErr (e : String)
  | running
deriving Repr, DecidableEq

/-- Observable actions of the watch loop: opening a subscription
(`client.Resource(gvr).Watch`), sleeping (`time.Sleep(5*time.Second)`),
and invoking the handler on a delivered event. -/
inductive WatchAction
  | subscribe
  | sleepSeconds (n : Nat)
  | handleEvent (evType : EventType) (obj : KObject)
deriving Repr, DecidableEq

/-- Aggregate result of a watch-loop run: outcome, final cache, gateway
call log, and the action trace. -/
structure WatchResult where
  outcome : WatchOutcome
  cache : Cache
  calls : List GCall
  actions : List WatchAction
deriving Repr

/-- The select loop of `kubernetes.WatchVMs`, after the initial
subscription.  On `ctx.Done` it returns `ctx.Err()`.  On a closed
channel it sleeps 5 seconds and re-invokes `WatchVMs`, i.e. subscribes
again and keeps consuming; the controller (and its cache) survive the
reconnect.  A handler error is returned immediately, ending the loop. -/
def watchLoop (aw : AwxResponses) (cfg : Config) :
    Cache → List WatchItem → WatchResult
  | cache, [] => ⟨.running, cache, [], []⟩
  | cache, .cancelled :: _ => ⟨.ctxDone, cache, [], []⟩
  | cache, .chanClosed :: rest =>
    let r := watchLoop aw cfg cache rest
    ⟨r.outcome, r.cache, r.calls, .sleepSeconds 5 :: .subscribe :: r.actions⟩
  | cache, .badObject :: rest => watchLoop aw cfg cache rest
  | cache, .msg t obj :: rest =>
    let h := handleWatchEvent aw cfg cache t obj
    match h.res with
    | .error e => ⟨.handlerErr e, h.cache, h.calls, [.handleEvent t obj]⟩
    | .ok _ =>
      let r := watchLoop aw cfg h.cache rest
      ⟨r.outcome, r.cache, h.calls ++ r.calls, .handleEvent t obj :: r.actions⟩

/-- `kubernetes.WatchVMs`: open the initial subscription, then run the
select loop. -/
def watchVMs (aw : AwxResponses) (cfg : Config) (cache : Cache)
    (items : List WatchItem) : WatchResult :=
  let r := watchLoop aw cfg cache items
  ⟨r.outcome, r.cache, r.calls, .subscribe :: r.actions⟩

/-- `Controller.Run` after `Initialize`: the watch loop starting from
the empty namespace cache (`make(map[string]int)` in `controller.New`). -/
def runEngine (aw : AwxResponses) (cfg : Config)
    (items : List WatchItem) : WatchResult :=
  watchVMs aw cfg [] items

/-! ## AWX HTTP client (internal/awx/client.go), response level

The client functions are embedded over an abstract HTTP endpoint
(`InventoryApi`): each request the client can issue is a field whose
value is the decoded response, `.error` standing for a transport
failure of `client.Do` and `.ok` for a delivered response with its
status code and decoded body.  JSON decoding of delivered bodies is
modelled as already done (the claims under study do not concern decode
failures). -/

/-- A delivered response to a list-endpoint GET: status code and the
ids of the decoded `results` array. -/
structure ListResp where
  status : Nat
  results : List Int
deriving Repr, DecidableEq

/-- A delivered response to a create POST: status code and the decoded
`id`. -/
structure CreateResp where
  status : Nat
  id : Int
deriving Repr, DecidableEq

/-- The AWX HTTP endpoint as seen by `awx.Client`: one response per
request shape (request URL / payload arguments).  `deleteHostReq` is
the status code answered to `DELETE /api/v2/hosts/{id}/`. -/
structure InventoryApi where
  lookupInventory : String → Except String ListResp
  postInventory : String → Int → Except String CreateResp
  lookupGroup : Int → String → Except String ListResp
  postGroup : Int → String → Except String CreateResp
  lookupHost : Int → String → Except String ListResp
  deleteHostReq : Int → Except String Nat

/-- `awx.GetInventoryID`: GET `/api/v2/inventories/?name=…`; transport
errors propagate; a non-200 status is an error; an empty result list
yields `(0, nil)`; otherwise the first result's id. -/
def GetInventoryID (api : InventoryApi) (name : String) : Except String Int :=
  match api.lookupInventory name with
  | .error e => .error e
  | .ok resp =>
    if resp.status ≠ 200 then
      .error ("failed to get inventory: HTTP " ++ toString resp.status)
    else
      match resp.results with
      | [] => .ok 0
      | id :: _ => .ok id

/-- `awx.CreateInventory`: POST `/api/v2/inventories/`; 201 returns the
created id; 400 falls back to `GetInventoryID` on the same name
("inventory might already exist, try to get it"); any other status is
an error. -/
def CreateInventory (api : InventoryApi) (name : String) (orgID : Int) :
    Except String Int :=
  match api.postInventory name orgID with
  | .error e => .error e
  | .ok resp =>
    if resp.status = 201 then .ok resp.id
    else if resp.status = 400 then GetInventoryID api name
    else .error ("failed to create inventory: HTTP " ++ toString resp.status)

/-- `awx.GetOrCreateGroup`: GET the group by name; when the GET
delivers a 200 with a non-empty result list, return the first id;
otherwise POST a create, where only a 201 succeeds — any other status,
400 included, is an error. -/
def GetOrCreateGroup (api : InventoryApi) (invID : Int) (groupName : String) :
    Except String Int :=
  match api.lookupGroup invID groupName with
  | .error e => .error e
  | .ok g =>
    match g.status, g.results with
    | 200, id :: _ => .ok id
    | _, _ =>
      match api.postGroup invID groupName with
      | .error e => .error e
      | .ok p =>
        if p.status = 201 then .ok p.id
        else .error ("failed to create group: HTTP " ++ toString p.status)

/-- `awx.GetHostID`: GET `/api/v2/inventories/{invID}/hosts/?name=…`;
transport errors propagate; any non-200 status returns `(0, nil)` —
the same value as "no host found"; an empty result list returns
`(0, nil)`; otherwise the first result's id. -/
def GetHostID (api : InventoryApi) (invID : Int) (hostName : String) :
    Except String Int :=
  match api.lookupHost invID hostName with
  | .error e => .error e
  | .ok resp =>
    if resp.status ≠ 200 then .ok 0
    else
      match resp.results with
      | [] => .ok 0
      | id :: _ => .ok id

/-- Result of `awx.DeleteHost` at the HTTP level: the returned error
value and whether a DELETE request was issued at all. -/
structure DeleteHostResult where
  res : Except String Unit
  deleteIssued : Bool
deriving Repr

/-- `awx.DeleteHost`: look the host up by name; when the lookup errors
or finds no host (id 0), return nil without issuing a DELETE;
otherwise DELETE `/api/v2/hosts/{id}/`, where 204 and 404 succeed and
any other status is an error. -/
def DeleteHost (api : InventoryApi) (invID : Int) (hostName : String) :
    DeleteHostResult :=
  match GetHostID api invID hostName with
  | .error _ => ⟨.ok (), false⟩
  | .ok hostID =>
    if hostID = 0 then ⟨.ok (), false⟩
    else
      match api.deleteHostReq hostID with
      | .error e => ⟨.error e, true⟩
      | .ok status =>
        if status ≠ 204 ∧ status ≠ 404 then
          ⟨.error ("failed to delete host: HTTP " ++ toString status), true⟩
        else ⟨.ok (), true⟩

/-! ## AWX host operations over remote state (internal/awx/client.go)

For the idempotence claims the same two client functions —
`CreateOrUpdateHost` and `DeleteHost` — are embedded against a
well-behaved remote: the server holds a list of host records, answers
lookups with the records matching the query in list order, and
executes creates / patches / deletes as documented (statuses 200 / 201
/ 204).  This is the remote-state semantics of the HTTP code above. -/

/-- One host record held by the remote system. -/
structure RemoteHost where
  id : Int
  inventory : Int
  name : String
  vars : HostVars
deriving Repr, DecidableEq

/-- The remote system's state: its host records and the next id it
will assign to a created host. -/
structure RemoteState where
  hosts : List RemoteHost
  nextId : Int
deriving Repr, DecidableEq

/-- Does a host record match a (inventory, name) query? -/
def hostMatch (invID : Int) (hostName : String) (h : RemoteHost) : Bool :=
  h.inventory == invID && h.name == hostName

/-- `awx.GetHostID` against the well-behaved remote: the id of the
first host matching (inventory, name), or 0 when there is none. -/
def getHostIDState (r : RemoteState) (invID : Int) (hostName : String) : Int :=
  match r.hosts.find? (hostMatch invID hostName) with
  | some h => h.id
  | none => 0

/-- `awx.CreateOrUpdateHost` against the well-behaved remote: look the
host up by name; when the found id is positive, PATCH it (the payload
sets the name and the variables string); otherwise POST a new host into the
inventory, which the server appends under a fresh id. -/
def CreateOrUpdateHost (r : RemoteState) (invID : Int) (hostName : String)
    (vars : HostVars) : Except String Unit × RemoteState :=
  let hostID := getHostIDState r invID hostName
  if hostID > 0 then
    (.ok (),
      { r with hosts := r.hosts.map fun h =>
          if h.id == hostID then { h with name := hostName, vars := vars }
          else h })
  else
    (.ok (),
      { hosts := r.hosts ++
          [{ id := r.nextId, inventory := invID, name := hostName,
             vars := vars }],
        nextId := r.nextId + 1 })

/-- `awx.DeleteHost` against the well-behaved remote: look the host up
by name; id 0 returns nil with the state untouched; otherwise the
server deletes the record with that id. -/
def DeleteHostState (r : RemoteState) (invID : Int) (hostName : String) :
    Except String Unit × RemoteState :=
  let hostID := getHostIDState r invID hostName
  if hostID = 0 then (.ok (), r)
  else (.ok (), { r with hosts := r.hosts.filter fun h => h.id != hostID })

/-- Well-formedness of the remote state: ids are positive, below
`nextId`, and pairwise distinct, and `nextId` is positive — the ids an
AWX server actually assigns. -/
def RemoteState.WF (r : RemoteState) : Prop :=
  (∀ h ∈ r.hosts, 0 < h.id ∧ h.id < r.nextId) ∧
    r.hosts.Pairwise (fun a b => a.id ≠ b.id) ∧ 0 < r.nextId

/-- The host records matching (inventory, name). -/
def matchingHosts (r : RemoteState) (invID : Int) (hostName : String) :
    List RemoteHost :=
  r.hosts.filter (hostMatch invID hostName)

/-! ## Auxiliary definitions used by the statements -/

/-- Is a gateway call a host upsert (`CreateOrUpdateHost`)? -/
def isUpsertCall : GCall → Bool
  | .createOrUpdateHost _ _ _ => true
  | _ => false

/-- Is a gateway call an inventory creation with the given target
name? -/
def isCreateInventoryFor (nm : String) : GCall → Bool
  | .createInventory n _ => n == nm
  | _ => false

/-- Number of inventory-creation calls with the given target name in a
call log. -/
def countCreateInventory (calls : List GCall) (nm : String) : Nat :=
  (calls.filter (isCreateInventoryFor nm)).length

/-- The action trace the reconnect policy produces for `k` consecutive
channel closures: each closure contributes a 5-second sleep followed by
a fresh subscription. -/
def reconnectActions : Nat → List WatchAction
  | 0 => []
  | k + 1 => .sleepSeconds 5 :: .subscribe :: reconnectActions k

/-! ## Concrete instances for witnesses and counterexamples -/

/-- Gateway responses where every operation succeeds: the organization
has id 1, no inventory exists yet, and creation yields id 42. -/
def awOkDemo : AwxResponses :=
  { getOrganizationID := fun _ => .ok 1
    getInventoryID := fun _ => .ok 0
    createInventory := fun _ _ => .ok 42
    createOrUpdateHost := fun _ _ _ => .ok ()
    deleteHost := fun _ _ => .ok () }

/-- Gateway responses whose organization lookup fails. -/
def awErrDemo : AwxResponses :=
  { getOrganizationID := fun _ => .error "boom"
    getInventoryID := fun _ => .ok 0
    createInventory := fun _ _ => .ok 42
    createOrUpdateHost := fun _ _ _ => .ok ()
    deleteHost := fun _ _ => .ok () }

/-- Demo configuration: organization "Default", prefix "k8s". -/
def cfgDemo : Config := ⟨"Default", "k8s"⟩

/-- A fully populated VM object in namespace "prod". -/
def objDemo : KObject :=
  ⟨some "prod", some "vm1", some "10.0.0.5", some [("tier", "web")]⟩

/-- A second VM object, also in namespace "prod". -/
def objDemo2 : KObject :=
  ⟨some "prod", some "vm2", some "10.0.0.6", some []⟩

/-- An AWX endpoint where the group lookup delivers 200 with no
results and the group create delivers a 400 conflict. -/
def apiGroupConflictDemo : InventoryApi :=
  { lookupInventory := fun _ => .ok ⟨200, [42]⟩
    postInventory := fun _ _ => .ok ⟨400, 0⟩
    lookupGroup := fun _ _ => .ok ⟨200, []⟩
    postGroup := fun _ _ => .ok ⟨400, 0⟩
    lookupHost := fun _ _ => .ok ⟨200, []⟩
    deleteHostReq := fun _ => .ok 204 }

/-- An AWX endpoint whose host lookup delivers HTTP 500. -/
def apiHostLookup500Demo : InventoryApi :=
  { lookupInventory := fun _ => .ok ⟨200, []⟩
    postInventory := fun _ _ => .ok ⟨400, 0⟩
    lookupGroup := fun _ _ => .ok ⟨200, [7]⟩
    postGroup := fun _ _ => .ok ⟨201, 7⟩
    lookupHost := fun _ _ => .ok ⟨500, [9]⟩
    deleteHostReq := fun _ => .ok 204 }

/-! # Theorems -/

/-- Claim C8: on a cache miss the target inventory name is the prefix
and the namespace joined by a single space, and exactly the namespace
when the prefix is empty; the miss path's gateway calls look the
inventory up under that name. -/
theorem claim_C8 (aw : AwxResponses) (cfg : Config) (cache : Cache)
    (ns : String) (orgID : Int)
    (hmiss : cacheLookup cache ns = none)
    (horg : aw.getOrganizationID cfg.organization = .ok orgID) :
    (cfg.pfx ≠ "" → inventoryName cfg ns = cfg.pfx ++ " " ++ ns) ∧
    (cfg.pfx = "" → inventoryName cfg ns = ns) ∧
    ∃ rest, (getOrCreateInventoryForNamespace aw cfg cache ns).calls =
      .getOrganizationID cfg.organization ::
        .getInventoryID (inventoryName cfg ns) :: rest := by
  refine ⟨fun h => by simp [inventoryName, h], fun h => by simp [inventoryName, h], ?_⟩
  unfold getOrCreateInventoryForNamespace
  rw [hmiss]
  simp only [horg]
  rcases hinv : aw.getInventoryID (inventoryName cfg ns) with e | invID
  · exact ⟨[], rfl⟩
  · by_cases h0 : invID = 0
    · subst h0
      rcases hcr : aw.createInventory (inventoryName cfg ns) orgID with e | newID <;>
        simp [hcr]
    · simp [h0]

/-- Claim C8 witness: concrete instantiation at the demo gateway and a
namespace missing from the cache. -/
theorem claim_C8_witness :
    inventoryName cfgDemo "prod" = cfgDemo.pfx ++ " " ++ "prod" ∧
    ∃ rest, (getOrCreateInventoryForNamespace awOkDemo cfgDemo [] "prod").calls =
      .getOrganizationID cfgDemo.organization ::
        .getInventoryID (inventoryName cfgDemo "prod") :: rest :=
  ⟨(claim_C8 awOkDemo cfgDemo [] "prod" 1 rfl rfl).1 (by decide),
    (claim_C8 awOkDemo cfgDemo [] "prod" 1 rfl rfl).2.2⟩

/-- Claim C9: an event whose object is missing metadata.namespace or
metadata.name is handled successfully with no gateway call, and so is
every event whose type is neither Added, Modified nor Deleted. -/
theorem claim_C9 (aw : AwxResponses) (cfg : Config) (cache : Cache)
    (t : EventType) (obj : KObject) :
    (obj.metaNamespace = none →
      handleWatchEvent aw cfg cache t obj = ⟨.ok (), cache, []⟩) ∧
    (obj.metaName = none →
      handleWatchEvent aw cfg cache t obj = ⟨.ok (), cache, []⟩) ∧
    handleWatchEvent aw cfg cache .bookmark obj = ⟨.ok (), cache, []⟩ ∧
    handleWatchEvent aw cfg cache .evErr obj = ⟨.ok (), cache, []⟩ := by
  refine ⟨fun h => by simp [handleWatchEvent, h], fun h => ?_, ?_, ?_⟩
  · unfold handleWatchEvent
    cases obj.metaNamespace <;> simp [h]
  · unfold handleWatchEvent
    cases obj.metaNamespace <;> cases hn : obj.metaName <;> simp
  · unfold handleWatchEvent
    cases obj.metaNamespace <;> cases hn : obj.metaName <;> simp

/-- Claim C9 witness: concrete instantiation: an object lacking
metadata fields is handled as a successful no-op, and so are Bookmark
and Error events on a fully populated object. -/
theorem claim_C9_witness :
    handleWatchEvent awOkDemo cfgDemo [] .added ⟨none, none, some "10.0.0.5", none⟩ =
      ⟨.ok (), [], []⟩ ∧
    handleWatchEvent awOkDemo cfgDemo [] .modified ⟨none, none, some "10.0.0.5", none⟩ =
      ⟨.ok (), [], []⟩ ∧
    handleWatchEvent awOkDemo cfgDemo [] .bookmark objDemo = ⟨.ok (), [], []⟩ ∧
    handleWatchEvent awOkDemo cfgDemo [] .evErr objDemo = ⟨.ok (), [], []⟩ :=
  ⟨(claim_C9 awOkDemo cfgDemo [] .added ⟨none, none, some "10.0.0.5", none⟩).1 rfl,
    (claim_C9 awOkDemo cfgDemo [] .modified ⟨none, none, some "10.0.0.5", none⟩).2.1 rfl,
    (claim_C9 awOkDemo cfgDemo [] .added objDemo).2.2.1,
    (claim_C9 awOkDemo cfgDemo [] .added objDemo).2.2.2⟩

/-- Claim C1 counterexample: with an empty cache, processing a Removed
notification for namespace "prod" is not gateway-call-free — the
controller issues an organization lookup, an inventory lookup, an
inventory creation and a host delete. -/
theorem claim_C1_counterexample :
    (handleVMDeleted awOkDemo cfgDemo [] "prod" "vm1").calls =
      [.getOrganizationID "Default", .getInventoryID "k8s prod",
        .createInventory "k8s prod" 1, .deleteHost 42 "vm1"] ∧
    (handleVMDeleted awOkDemo cfgDemo [] "prod" "vm1").calls ≠ [] := by
  refine ⟨rfl, ?_⟩
  intro h
  simp [handleVMDeleted, getOrCreateInventoryForNamespace, cacheLookup,
    awOkDemo, cfgDemo, inventoryName] at h

/-- Claim C1 amended: a Removed notification for a namespace with no
cached inventory entry is processed by resolving the inventory through
the gateway — organization lookup, inventory lookup by name, and
inventory creation when the lookup finds none — followed by a host
delete; when these succeed no error is returned and the namespace is
cached. -/
theorem claim_C1 (aw : AwxResponses) (cfg : Config) (cache : Cache)
    (ns name : String) (orgID invID : Int)
    (hmiss : cacheLookup cache ns = none)
    (horg : aw.getOrganizationID cfg.organization = .ok orgID)
    (hinv : aw.getInventoryID (inventoryName cfg ns) = .ok 0)
    (hcreate : aw.createInventory (inventoryName cfg ns) orgID = .ok invID)
    (hdel : aw.deleteHost invID name = .ok ()) :
    handleVMDeleted aw cfg cache ns name =
      ⟨.ok (), (ns, invID) :: cache,
        [.getOrganizationID cfg.organization,
          .getInventoryID (inventoryName cfg ns),
          .createInventory (inventoryName cfg ns) orgID,
          .deleteHost invID name]⟩ := by
  unfold handleVMDeleted getOrCreateInventoryForNamespace
  rw [hmiss]
  simp [horg, hinv, hcreate, hdel]

/-- Claim C1 witness: concrete instantiation of the amended claim at
the demo gateway. -/
theorem claim_C1_witness :
    handleVMDeleted awOkDemo cfgDemo [] "prod" "vm1" =
      ⟨.ok (), [("prod", 42)],
        [.getOrganizationID cfgDemo.organization,
          .getInventoryID (inventoryName cfgDemo "prod"),
          .createInventory (inventoryName cfgDemo "prod") 1,
          .deleteHost 42 "vm1"]⟩ :=
  claim_C1 awOkDemo cfgDemo [] "prod" "vm1" 1 42 rfl rfl rfl rfl rfl

/-- Claim C2 counterexample: when the organization lookup fails, the
deletion handler for the first notification returns an error, and the
watch loop terminates with that error — the second notification in the
stream is never handled. -/
theorem claim_C2_counterexample :
    (watchVMs awErrDemo cfgDemo []
        [.msg .deleted objDemo, .msg .deleted objDemo2]).outcome =
      .handlerErr
        "failed to get inventory for namespace: failed to get organization ID: boom" ∧
    (watchVMs awErrDemo cfgDemo []
        [.msg .deleted objDemo, .msg .deleted objDemo2]).actions =
      [.subscribe, .handleEvent .deleted objDemo] := by
  exact ⟨rfl, rfl⟩

/-- Claim C2 amended: an error from per-notification handling does
propagate past the notification boundary — the watch loop returns the
handler's error immediately and no later notification from the
subscription is processed. -/
theorem claim_C2 (aw : AwxResponses) (cfg : Config) (cache : Cache)
    (t : EventType) (obj : KObject) (rest : List WatchItem)
    (e : String) (c2 : Cache) (calls : List GCall)
    (h : handleWatchEvent aw cfg cache t obj = ⟨.error e, c2, calls⟩) :
    watchVMs aw cfg cache (.msg t obj :: rest) =
      ⟨.handlerErr e, c2, calls, [.subscribe, .handleEvent t obj]⟩ := by
  simp [watchVMs, watchLoop, h]

/-- Claim C2 witness: concrete instantiation of the amended claim —
the failing deletion ends the loop even though another item is
queued. -/
theorem claim_C2_witness :
    watchVMs awErrDemo cfgDemo [] (.msg .deleted objDemo :: [.msg .deleted objDemo2]) =
      ⟨.handlerErr
          "failed to get inventory for namespace: failed to get organization ID: boom",
        [], [.getOrganizationID "Default"],
        [.subscribe, .handleEvent .deleted objDemo]⟩ :=
  claim_C2 awErrDemo cfgDemo [] .deleted objDemo [.msg .deleted objDemo2]
    "failed to get inventory for namespace: failed to get organization ID: boom"
    [] [.getOrganizationID "Default"] rfl

/-- Claim C3 counterexample: a 400 conflict on group creation is not
recovered by a lookup-by-name — `GetOrCreateGroup` returns an error. -/
theorem claim_C3_counterexample :
    GetOrCreateGroup apiGroupConflictDemo 42 "vms" =
      .error "failed to create group: HTTP 400" := by
  rfl

/-- Claim C3 amended: a 400 conflict on inventory creation is treated
as success-equivalent — `CreateInventory` falls back to the
lookup-by-name `GetInventoryID` on the same name; a 400 conflict on
group creation is not — `GetOrCreateGroup` returns an error with no
fallback. -/
theorem claim_C3 (api : InventoryApi) (name groupName : String)
    (orgID invID : Int) (post : CreateResp) (g : ListResp) (p : CreateResp)
    (hpost : api.postInventory name orgID = .ok post)
    (hpost400 : post.status = 400)
    (hg : api.lookupGroup invID groupName = .ok g)
    (hg200 : g.status = 200) (hge : g.results = [])
    (hp : api.postGroup invID groupName = .ok p)
    (hp400 : p.status = 400) :
    CreateInventory api name orgID = GetInventoryID api name ∧
    GetOrCreateGroup api invID groupName =
      .error ("failed to create group: HTTP " ++ toString p.status) := by
  constructor
  · simp [CreateInventory, hpost, hpost400]
  · simp [GetOrCreateGroup, hg, hg200, hge, hp, hp400]

/-- Claim C3 witness: concrete instantiation of the amended claim at
the conflicting endpoint. -/
theorem claim_C3_witness :
    CreateInventory apiGroupConflictDemo "k8s prod" 1 =
      GetInventoryID apiGroupConflictDemo "k8s prod" ∧
    GetOrCreateGroup apiGroupConflictDemo 42 "vms" =
      .error ("failed to create group: HTTP " ++ toString (400 : Nat)) := by
  have h := claim_C3 apiGroupConflictDemo "k8s prod" "vms" 1 42
    ⟨400, 0⟩ ⟨200, []⟩ ⟨400, 0⟩ rfl rfl rfl rfl rfl rfl rfl
  exact ⟨h.1, h.2⟩

/-- Claim C10: `GetHostID` answers `(0, nil)` to every non-200
response of the host lookup, and `DeleteHost` returns success without
issuing a DELETE whenever the lookup errs (transport failure) or
returns 0. -/
theorem claim_C10 (api : InventoryApi) (invID : Int) (hostName : String)
    (resp : ListResp) (e : String) :
    (api.lookupHost invID hostName = .ok resp → resp.status ≠ 200 →
      GetHostID api invID hostName = .ok 0) ∧
    (GetHostID api invID hostName = .error e →
      DeleteHost api invID hostName = ⟨.ok (), false⟩) ∧
    (GetHostID api invID hostName = .ok 0 →
      DeleteHost api invID hostName = ⟨.ok (), false⟩) := by
  refine ⟨fun hl hs => ?_, fun h => ?_, fun h => ?_⟩
  · simp [GetHostID, hl, hs]
  · simp [DeleteHost, h]
  · simp [DeleteHost, h]

/-- Claim C10 witness: against an endpoint answering HTTP 500 to the
host lookup (with a non-empty result list), `GetHostID` returns id 0
and `DeleteHost` succeeds without issuing a DELETE. -/
theorem claim_C10_witness :
    GetHostID apiHostLookup500Demo 42 "vm1" = .ok 0 ∧
    DeleteHost apiHostLookup500Demo 42 "vm1" = ⟨.ok (), false⟩ :=
  ⟨(claim_C10 apiHostLookup500Demo 42 "vm1" ⟨500, [9]⟩ "e").1 rfl (by decide),
    (claim_C10 apiHostLookup500Demo 42 "vm1" ⟨500, [9]⟩ "e").2.2
      ((claim_C10 apiHostLookup500Demo 42 "vm1" ⟨500, [9]⟩ "e").1 rfl (by decide))⟩

/-- The select loop run on `k` channel closures followed by a
cancellation: every closure contributes a 5-second sleep and a fresh
subscription, and the cancellation ends the loop. -/
theorem watchLoop_replicate_closed (aw : AwxResponses) (cfg : Config)
    (cache : Cache) (k : Nat) :
    watchLoop aw cfg cache (List.replicate k .chanClosed ++ [.cancelled]) =
      ⟨.ctxDone, cache, [], reconnectActions k⟩ := by
  induction k with
  | zero => rfl
  | succ k ih => simp [List.replicate_succ, watchLoop, ih, reconnectActions]

/-- Claim C7: any number `k` of non-cancellation channel closures each
produce a fixed 5-second sleep followed by a fresh subscription — the
watcher never gives up and never exits — while a cancellation makes
the watcher return at once, with no reconnection, whatever is queued
behind it. -/
theorem claim_C7 (aw : AwxResponses) (cfg : Config) (cache : Cache)
    (k : Nat) (rest : List WatchItem) :
    watchVMs aw cfg cache (List.replicate k .chanClosed ++ [.cancelled]) =
      ⟨.ctxDone, cache, [], .subscribe :: reconnectActions k⟩ ∧
    watchVMs aw cfg cache (.cancelled :: rest) =
      ⟨.ctxDone, cache, [], [.subscribe]⟩ := by
  constructor
  · simp [watchVMs, watchLoop_replicate_closed]
  · rfl

/-- Claim C7 witness: three closures produce three sleep-and-subscribe
rounds; a queued closure behind a cancellation is never acted on. -/
theorem claim_C7_witness :
    watchVMs awOkDemo cfgDemo [] (List.replicate 3 .chanClosed ++ [.cancelled]) =
      ⟨.ctxDone, [], [], .subscribe :: reconnectActions 3⟩ ∧
    watchVMs awOkDemo cfgDemo [] (.cancelled :: [.chanClosed]) =
      ⟨.ctxDone, [], [], [.subscribe]⟩ :=
  claim_C7 awOkDemo cfgDemo [] 3 [.chanClosed]

/-- The inventory-resolution path issues no host upsert call, whatever
branch it takes. -/
theorem resolve_calls_no_upsert (aw : AwxResponses) (cfg : Config)
    (cache : Cache) (ns : String) :
    ((getOrCreateInventoryForNamespace aw cfg cache ns).calls).filter
      isUpsertCall = [] := by
  unfold getOrCreateInventoryForNamespace
  rcases hc : cacheLookup cache ns with _ | invID
  · rcases ho : aw.getOrganizationID cfg.organization with e | orgID
    · simp [ho, isUpsertCall]
    · rcases hi : aw.getInventoryID (inventoryName cfg ns) with e | invID
      · simp [ho, hi, isUpsertCall]
      · by_cases h0 : invID = 0
        · subst h0
          rcases hcr : aw.createInventory (inventoryName cfg ns) orgID with e | newID <;>
            simp [ho, hi, hcr, isUpsertCall]
        · simp [ho, hi, h0, isUpsertCall]
  · simp

/-- The handler for a VM with a successfully resolved inventory leaves
the resolver's cache in place and appends exactly one host upsert call,
carrying the four-field variables document, to the resolver's calls. -/
theorem handleVMAdded_ok (aw : AwxResponses) (cfg : Config) (cache : Cache)
    (vm : VirtualMachine) (invID : Int) (c2 : Cache) (calls2 : List GCall)
    (hres : getOrCreateInventoryForNamespace aw cfg cache vm.nsName =
      ⟨.ok invID, c2, calls2⟩) :
    (handleVMAdded aw cfg cache vm).cache = c2 ∧
    (handleVMAdded aw cfg cache vm).calls =
      calls2 ++ [.createOrUpdateHost invID vm.name
        ⟨vm.name, vm.nsName, vm.labels, vm.ip⟩] := by
  unfold handleVMAdded
  rw [hres]
  rcases hup : aw.createOrUpdateHost invID vm.name
      ⟨vm.name, vm.nsName, vm.labels, vm.ip⟩ with e | u <;>
    simp [hup]

/-- Claim C6: an Added or Modified notification whose VM record has an
empty address is handled with no gateway call and no error; with a
non-empty address and a resolved inventory, handling issues exactly
one host upsert, whose variables document is exactly the VM's name,
namespace, labels and address. -/
theorem claim_C6 (aw : AwxResponses) (cfg : Config) (cache : Cache)
    (obj : KObject) (ns nm : String) (invID : Int) (c2 : Cache)
    (calls2 : List GCall)
    (hns : obj.metaNamespace = some ns) (hn : obj.metaName = some nm) :
    ((unstructuredToVM obj).ip = "" →
      handleWatchEvent aw cfg cache .added obj = ⟨.ok (), cache, []⟩ ∧
      handleWatchEvent aw cfg cache .modified obj = ⟨.ok (), cache, []⟩) ∧
    ((unstructuredToVM obj).ip ≠ "" →
      getOrCreateInventoryForNamespace aw cfg cache (unstructuredToVM obj).nsName =
        ⟨.ok invID, c2, calls2⟩ →
      (handleWatchEvent aw cfg cache .added obj).calls.filter isUpsertCall =
        [.createOrUpdateHost invID (unstructuredToVM obj).name
          ⟨(unstructuredToVM obj).name, (unstructuredToVM obj).nsName,
            (unstructuredToVM obj).labels, (unstructuredToVM obj).ip⟩] ∧
      (handleWatchEvent aw cfg cache .modified obj).calls.filter isUpsertCall =
        [.createOrUpdateHost invID (unstructuredToVM obj).name
          ⟨(unstructuredToVM obj).name, (unstructuredToVM obj).nsName,
            (unstructuredToVM obj).labels, (unstructuredToVM obj).ip⟩]) := by
  constructor
  · intro hip
    constructor <;> simp [handleWatchEvent, hns, hn, hip]
  · intro hip hres
    have hcalls2 : calls2.filter isUpsertCall = [] := by
      have h := resolve_calls_no_upsert aw cfg cache (unstructuredToVM obj).nsName
      rw [hres] at h
      exact h
    have hadd := handleVMAdded_ok aw cfg cache (unstructuredToVM obj) invID c2 calls2 hres
    constructor <;>
      simp [handleWatchEvent, hns, hn, hip, hadd.2, List.filter_append, hcalls2,
        isUpsertCall]

/-- Claim C6 witness: a VM with address 10.0.0.5 in a namespace whose
inventory is cached as id 42 yields exactly one upsert with the
four-field variables document. -/
theorem claim_C6_witness :
    (unstructuredToVM objDemo).ip ≠ "" ∧
    (handleWatchEvent awOkDemo cfgDemo [("prod", 42)] .added objDemo).calls.filter
      isUpsertCall =
      [.createOrUpdateHost 42 "vm1" ⟨"vm1", "prod", [("tier", "web")], "10.0.0.5"⟩] :=
  ⟨by decide,
    ((claim_C6 awOkDemo cfgDemo [("prod", 42)] objDemo "prod" "vm1" 42
        [("prod", 42)] [] rfl rfl).2 (by decide) rfl).1⟩

/-! ### Cache-correctness infrastructure (claim C4) -/

/-- For a fixed configuration, distinct namespaces get distinct target
inventory names. -/
theorem inventoryName_inj (cfg : Config) (ns1 ns2 : String)
    (h : inventoryName cfg ns1 = inventoryName cfg ns2) : ns1 = ns2 := by
  unfold inventoryName at h
  by_cases hp : cfg.pfx = ""
  · simpa [hp] using h
  · rw [if_pos hp, if_pos hp] at h
    have hd := congrArg String.data h
    simp only [String.data_append] at hd
    have := List.append_cancel_left hd
    exact String.ext this

/-- A missed cache lookup means the namespace is not among the cache's
keys. -/
theorem cacheLookup_none_iff (cache : Cache) (ns : String) :
    cacheLookup cache ns = none ↔ ns ∉ cache.map Prod.fst := by
  induction cache with
  | nil => simp [cacheLookup]
  | cons kv rest ih =>
    obtain ⟨k, v⟩ := kv
    by_cases hk : k = ns
    · subst hk
      simp [cacheLookup]
    · simp [cacheLookup, hk, ih, Ne.symm hk]

/-- The resolver's count of inventory-creation calls for any name is at
most one. -/
theorem resolve_count_le (aw : AwxResponses) (cfg : Config) (cache : Cache)
    (ns nm : String) :
    countCreateInventory (getOrCreateInventoryForNamespace aw cfg cache ns).calls
      nm ≤ 1 := by
  unfold getOrCreateInventoryForNamespace
  rcases hc : cacheLookup cache ns with _ | invID
  · rcases ho : aw.getOrganizationID cfg.organization with e | orgID
    · simp [ho, countCreateInventory, isCreateInventoryFor]
    · rcases hi : aw.getInventoryID (inventoryName cfg ns) with e | invID
      · simp [ho, hi, countCreateInventory, isCreateInventoryFor]
      · by_cases h0 : invID = 0
        · subst h0
          rcases hcr : aw.createInventory (inventoryName cfg ns) orgID with e | newID <;>
            simp [ho, hi, hcr, countCreateInventory, isCreateInventoryFor,
              List.filter_cons] <;>
            split <;> simp
        · simp [ho, hi, h0, countCreateInventory, isCreateInventoryFor]
  · simp [countCreateInventory, isCreateInventoryFor]

/-- Any inventory-creation call the resolver issues targets the name
computed for the namespace being resolved. -/
theorem resolve_count_name (aw : AwxResponses) (cfg : Config) (cache : Cache)
    (ns nm : String)
    (h : 1 ≤ countCreateInventory
      (getOrCreateInventoryForNamespace aw cfg cache ns).calls nm) :
    nm = inventoryName cfg ns := by
  by_contra hne
  have hnm : (inventoryName cfg ns == nm) = false := by
    simp
    exact fun hh => hne hh.symm
  revert h
  unfold getOrCreateInventoryForNamespace
  rcases hc : cacheLookup cache ns with _ | invID
  · rcases ho : aw.getOrganizationID cfg.organization with e | orgID
    · simp [ho, countCreateInventory, isCreateInventoryFor]
    · rcases hi : aw.getInventoryID (inventoryName cfg ns) with e | invID
      · simp [ho, hi, countCreateInventory, isCreateInventoryFor]
      · by_cases h0 : invID = 0
        · subst h0
          rcases hcr : aw.createInventory (inventoryName cfg ns) orgID with e | newID <;>
            simp [ho, hi, hcr, countCreateInventory, isCreateInventoryFor, hnm]
        · simp [ho, hi, h0, countCreateInventory, isCreateInventoryFor]
  · simp [countCreateInventory, isCreateInventoryFor]

/-- A successful resolution leaves the namespace cached under the
returned id. -/
theorem resolve_ok_cached (aw : AwxResponses) (cfg : Config) (cache : Cache)
    (ns : String) (id : Int)
    (h : (getOrCreateInventoryForNamespace aw cfg cache ns).res = .ok id) :
    cacheLookup (getOrCreateInventoryForNamespace aw cfg cache ns).cache ns =
      some id := by
  revert h
  unfold getOrCreateInventoryForNamespace
  rcases hc : cacheLookup cache ns with _ | invID
  · rcases ho : aw.getOrganizationID cfg.organization with e | orgID
    · simp [ho]
    · rcases hi : aw.getInventoryID (inventoryName cfg ns) with e | invID
      · simp [ho, hi]
      · by_cases h0 : invID = 0
        · subst h0
          rcases hcr : aw.createInventory (inventoryName cfg ns) orgID with e | newID <;>
            simp [ho, hi, hcr, cacheLookup]
        · simp [ho, hi, h0, cacheLookup]
  · simp [hc]

/-- Resolution never drops an existing cache binding. -/
theorem resolve_mono (aw : AwxResponses) (cfg : Config) (cache : Cache)
    (ns x : String) (v : Int) (h : cacheLookup cache x = some v) :
    cacheLookup (getOrCreateInventoryForNamespace aw cfg cache ns).cache x =
      some v := by
  have hcons : ∀ id : Int, cacheLookup cache ns = none →
      cacheLookup ((ns, id) :: cache) x = some v := by
    intro id hmiss
    by_cases hx : ns = x
    · subst hx
      rw [h] at hmiss
      exact absurd hmiss (by simp)
    · simpa [cacheLookup, hx] using h
  unfold getOrCreateInventoryForNamespace
  rcases hc : cacheLookup cache ns with _ | invID
  · rcases ho : aw.getOrganizationID cfg.organization with e | orgID
    · simpa [ho] using h
    · rcases hi : aw.getInventoryID (inventoryName cfg ns) with e | invID
      · simpa [ho, hi] using h
      · by_cases h0 : invID = 0
        · subst h0
          rcases hcr : aw.createInventory (inventoryName cfg ns) orgID with e | newID
          · simpa [ho, hi, hcr] using h
          · simpa [ho, hi, hcr] using hcons newID hc
        · simpa [ho, hi, h0] using hcons invID hc
  · simpa using h

/-- The VM handler takes its cache from the resolver, adds no
inventory-creation call beyond the resolver's, and succeeds only when
the resolver did. -/
theorem hva_resolver (aw : AwxResponses) (cfg : Config) (cache : Cache)
    (vm : VirtualMachine) :
    (handleVMAdded aw cfg cache vm).cache =
      (getOrCreateInventoryForNamespace aw cfg cache vm.nsName).cache ∧
    (∀ nm, countCreateInventory (handleVMAdded aw cfg cache vm).calls nm =
      countCreateInventory
        (getOrCreateInventoryForNamespace aw cfg cache vm.nsName).calls nm) ∧
    (∀ u, (handleVMAdded aw cfg cache vm).res = .ok u →
      ∃ id, (getOrCreateInventoryForNamespace aw cfg cache vm.nsName).res =
        .ok id) := by
  unfold handleVMAdded
  rcases hr : getOrCreateInventoryForNamespace aw cfg cache vm.nsName with
    ⟨res, c2, calls2⟩
  cases res with
  | error e => simp
  | ok invID =>
    rcases hup : aw.createOrUpdateHost invID vm.name
        ⟨vm.name, vm.nsName, vm.labels, vm.ip⟩ with e | u <;>
      simp [hup, countCreateInventory, List.filter_append, isCreateInventoryFor]

/-- The deletion handler takes its cache from the resolver, adds no
inventory-creation call beyond the resolver's, and succeeds only when
the resolver did. -/
theorem hvd_resolver (aw : AwxResponses) (cfg : Config) (cache : Cache)
    (ns name : String) :
    (handleVMDeleted aw cfg cache ns name).cache =
      (getOrCreateInventoryForNamespace aw cfg cache ns).cache ∧
    (∀ nm, countCreateInventory (handleVMDeleted aw cfg cache ns name).calls nm =
      countCreateInventory
        (getOrCreateInventoryForNamespace aw cfg cache ns).calls nm) ∧
    (∀ u, (handleVMDeleted aw cfg cache ns name).res = .ok u →
      ∃ id, (getOrCreateInventoryForNamespace aw cfg cache ns).res = .ok id) := by
  unfold handleVMDeleted
  rcases hr : getOrCreateInventoryForNamespace aw cfg cache ns with
    ⟨res, c2, calls2⟩
  cases res with
  | error e => simp
  | ok invID =>
    rcases hdel : aw.deleteHost invID name with e | u <;>
      simp [hdel, countCreateInventory, List.filter_append, isCreateInventoryFor]

/-- Every watch event is handled either as a trivial no-op or through
the inventory resolver of some namespace, whose cache it adopts, whose
inventory-creation calls are exactly its own, and whose success its own
success implies. -/
theorem hwe_resolver (aw : AwxResponses) (cfg : Config) (cache : Cache)
    (t : EventType) (obj : KObject) :
    handleWatchEvent aw cfg cache t obj = ⟨.ok (), cache, []⟩ ∨
    ∃ ns2, ((handleWatchEvent aw cfg cache t obj).cache =
        (getOrCreateInventoryForNamespace aw cfg cache ns2).cache ∧
      (∀ nm, countCreateInventory (handleWatchEvent aw cfg cache t obj).calls nm =
        countCreateInventory
          (getOrCreateInventoryForNamespace aw cfg cache ns2).calls nm) ∧
      (∀ u, (handleWatchEvent aw cfg cache t obj).res = .ok u →
        ∃ id, (getOrCreateInventoryForNamespace aw cfg cache ns2).res = .ok id)) := by
  unfold handleWatchEvent
  rcases hns : obj.metaNamespace with _ | ns
  · exact Or.inl rfl
  rcases hn : obj.metaName with _ | nm
  · exact Or.inl rfl
  cases t with
  | added =>
    by_cases hip : (unstructuredToVM obj).ip = ""
    · exact Or.inl (by simp [hip])
    · refine Or.inr ⟨(unstructuredToVM obj).nsName, ?_⟩
      simp only [if_neg hip]
      exact hva_resolver aw cfg cache (unstructuredToVM obj)
  | modified =>
    by_cases hip : (unstructuredToVM obj).ip = ""
    · exact Or.inl (by simp [hip])
    · refine Or.inr ⟨(unstructuredToVM obj).nsName, ?_⟩
      simp only [if_neg hip]
      exact hva_resolver aw cfg cache (unstructuredToVM obj)
  | deleted => exact Or.inr ⟨ns, hvd_resolver aw cfg cache ns nm⟩
  | bookmark => exact Or.inl rfl
  | evErr => exact Or.inl rfl

/-- Event handling never drops an existing cache binding. -/
theorem hwe_mono (aw : AwxResponses) (cfg : Config) (cache : Cache)
    (t : EventType) (obj : KObject) (x : String) (v : Int)
    (h : cacheLookup cache x = some v) :
    cacheLookup (handleWatchEvent aw cfg cache t obj).cache x = some v := by
  rcases hwe_resolver aw cfg cache t obj with heq | ⟨ns2, hcache, _, _⟩
  · rw [heq]
    exact h
  · rw [hcache]
    exact resolve_mono aw cfg cache ns2 x v h

/-- One handled event issues at most one inventory-creation call for
any given name. -/
theorem hwe_count_le (aw : AwxResponses) (cfg : Config) (cache : Cache)
    (t : EventType) (obj : KObject) (nm : String) :
    countCreateInventory (handleWatchEvent aw cfg cache t obj).calls nm ≤ 1 := by
  rcases hwe_resolver aw cfg cache t obj with heq | ⟨ns2, _, hcount, _⟩
  · rw [heq]
    simp [countCreateInventory]
  · rw [hcount nm]
    exact resolve_count_le aw cfg cache ns2 nm

/-- Once a namespace is cached, handling any event issues no
inventory-creation call for that namespace's target name. -/
theorem hwe_cached_zero (aw : AwxResponses) (cfg : Config) (cache : Cache)
    (t : EventType) (obj : KObject) (ns : String) (id : Int)
    (hhit : cacheLookup cache ns = some id) :
    countCreateInventory (handleWatchEvent aw cfg cache t obj).calls
      (inventoryName cfg ns) = 0 := by
  rcases hwe_resolver aw cfg cache t obj with heq | ⟨ns2, _, hcount, _⟩
  · rw [heq]
    simp [countCreateInventory]
  · rw [hcount]
    by_contra hne
    have h1 : 1 ≤ countCreateInventory
        (getOrCreateInventoryForNamespace aw cfg cache ns2).calls
        (inventoryName cfg ns) := Nat.one_le_iff_ne_zero.mpr hne
    have hnm := resolve_count_name aw cfg cache ns2 (inventoryName cfg ns) h1
    have hns2 : ns = ns2 := inventoryName_inj cfg ns ns2 hnm
    subst hns2
    rw [show getOrCreateInventoryForNamespace aw cfg cache ns =
        ⟨.ok id, cache, []⟩ by
      unfold getOrCreateInventoryForNamespace
      rw [hhit]] at h1
    simp [countCreateInventory] at h1

/-- When handling an event succeeds and did issue an
inventory-creation call for some name, that name is the target name of
a namespace now present in the cache. -/
theorem hwe_ok_create_cached (aw : AwxResponses) (cfg : Config) (cache : Cache)
    (t : EventType) (obj : KObject) (nm : String) (u : Unit)
    (hok : (handleWatchEvent aw cfg cache t obj).res = .ok u)
    (hcnt : 1 ≤ countCreateInventory
      (handleWatchEvent aw cfg cache t obj).calls nm) :
    ∃ ns2 id2, nm = inventoryName cfg ns2 ∧
      cacheLookup (handleWatchEvent aw cfg cache t obj).cache ns2 = some id2 := by
  rcases hwe_resolver aw cfg cache t obj with heq | ⟨ns2, hcache, hcount, hres⟩
  · rw [heq] at hcnt
    simp [countCreateInventory] at hcnt
  · rw [hcount] at hcnt
    have hnm := resolve_count_name aw cfg cache ns2 nm hcnt
    obtain ⟨id, hid⟩ := hres u hok
    refine ⟨ns2, id, hnm, ?_⟩
    rw [hcache]
    exact resolve_ok_cached aw cfg cache ns2 id hid

/-- Resolution keeps the cache's keys free of duplicates. -/
theorem resolve_nodup (aw : AwxResponses) (cfg : Config) (cache : Cache)
    (ns : String) (h : (cache.map Prod.fst).Nodup) :
    ((getOrCreateInventoryForNamespace aw cfg cache ns).cache.map Prod.fst).Nodup := by
  have hcons : ∀ id : Int, cacheLookup cache ns = none →
      ((((ns, id) :: cache).map Prod.fst).Nodup) := by
    intro id hmiss
    simp only [List.map_cons, List.nodup_cons]
    exact ⟨(cacheLookup_none_iff cache ns).mp hmiss, h⟩
  unfold getOrCreateInventoryForNamespace
  rcases hc : cacheLookup cache ns with _ | invID
  · rcases ho : aw.getOrganizationID cfg.organization with e | orgID
    · simpa [ho] using h
    · rcases hi : aw.getInventoryID (inventoryName cfg ns) with e | invID
      · simpa [ho, hi] using h
      · by_cases h0 : invID = 0
        · subst h0
          rcases hcr : aw.createInventory (inventoryName cfg ns) orgID with e | newID
          · simpa [ho, hi, hcr] using h
          · simpa [ho, hi, hcr] using hcons newID hc
        · simpa [ho, hi, h0] using hcons invID hc
  · simpa using h

/-- Counting inventory-creation calls distributes over appended call
logs. -/
theorem countCreateInventory_append (a b : List GCall) (nm : String) :
    countCreateInventory (a ++ b) nm =
      countCreateInventory a nm + countCreateInventory b nm := by
  simp [countCreateInventory, List.filter_append]

/-- Event handling keeps the cache's keys free of duplicates. -/
theorem hwe_nodup (aw : AwxResponses) (cfg : Config) (cache : Cache)
    (t : EventType) (obj : KObject) (h : (cache.map Prod.fst).Nodup) :
    (((handleWatchEvent aw cfg cache t obj).cache.map Prod.fst).Nodup) := by
  rcases hwe_resolver aw cfg cache t obj with heq | ⟨ns2, hcache, _, _⟩
  · rw [heq]
    exact h
  · rw [hcache]
    exact resolve_nodup aw cfg cache ns2 h

/-- An existing cache binding survives the whole watch loop. -/
theorem watchLoop_mono (aw : AwxResponses) (cfg : Config)
    (items : List WatchItem) :
    ∀ (cache : Cache) (x : String) (v : Int), cacheLookup cache x = some v →
      cacheLookup (watchLoop aw cfg cache items).cache x = some v := by
  induction items with
  | nil =>
    intro cache x v h
    simpa [watchLoop] using h
  | cons it rest ih =>
    intro cache x v h
    cases it with
    | cancelled => simpa [watchLoop] using h
    | chanClosed => simpa [watchLoop] using ih cache x v h
    | badObject => simpa [watchLoop] using ih cache x v h
    | msg t obj =>
      have hm := hwe_mono aw cfg cache t obj x v h
      rcases hres : (handleWatchEvent aw cfg cache t obj).res with e | u
      · simpa [watchLoop, hres] using hm
      · simpa [watchLoop, hres] using
          ih (handleWatchEvent aw cfg cache t obj).cache x v hm

/-- Once a namespace is cached, the rest of the watch loop issues no
inventory-creation call for its target name. -/
theorem watchLoop_cached_zero (aw : AwxResponses) (cfg : Config)
    (items : List WatchItem) :
    ∀ (cache : Cache) (ns : String) (id : Int), cacheLookup cache ns = some id →
      countCreateInventory (watchLoop aw cfg cache items).calls
        (inventoryName cfg ns) = 0 := by
  induction items with
  | nil =>
    intro cache ns id h
    simp [watchLoop, countCreateInventory]
  | cons it rest ih =>
    intro cache ns id h
    cases it with
    | cancelled => simp [watchLoop, countCreateInventory]
    | chanClosed => simpa [watchLoop] using ih cache ns id h
    | badObject => simpa [watchLoop] using ih cache ns id h
    | msg t obj =>
      have h0 := hwe_cached_zero aw cfg cache t obj ns id h
      rcases hres : (handleWatchEvent aw cfg cache t obj).res with e | u
      · simpa [watchLoop, hres] using h0
      · have hm := hwe_mono aw cfg cache t obj ns id h
        have hr := ih (handleWatchEvent aw cfg cache t obj).cache ns id hm
        have : countCreateInventory
            ((handleWatchEvent aw cfg cache t obj).calls ++
              (watchLoop aw cfg (handleWatchEvent aw cfg cache t obj).cache
                rest).calls) (inventoryName cfg ns) = 0 := by
          rw [countCreateInventory_append, h0, hr]
        simpa [watchLoop, hres] using this

/-- Over any watch-loop run, the inventory-creation calls for any given
name number at most one. -/
theorem watchLoop_count_le (aw : AwxResponses) (cfg : Config)
    (items : List WatchItem) :
    ∀ (cache : Cache) (nm : String),
      countCreateInventory (watchLoop aw cfg cache items).calls nm ≤ 1 := by
  induction items with
  | nil =>
    intro cache nm
    simp [watchLoop, countCreateInventory]
  | cons it rest ih =>
    intro cache nm
    cases it with
    | cancelled => simp [watchLoop, countCreateInventory]
    | chanClosed => simpa [watchLoop] using ih cache nm
    | badObject => simpa [watchLoop] using ih cache nm
    | msg t obj =>
      rcases hres : (handleWatchEvent aw cfg cache t obj).res with e | u
      · simpa [watchLoop, hres] using hwe_count_le aw cfg cache t obj nm
      · have key : countCreateInventory
            ((handleWatchEvent aw cfg cache t obj).calls ++
              (watchLoop aw cfg (handleWatchEvent aw cfg cache t obj).cache
                rest).calls) nm ≤ 1 := by
          rw [countCreateInventory_append]
          by_cases hz : countCreateInventory
              (handleWatchEvent aw cfg cache t obj).calls nm = 0
          · have hrest := ih (handleWatchEvent aw cfg cache t obj).cache nm
            omega
          · have h1 : 1 ≤ countCreateInventory
                (handleWatchEvent aw cfg cache t obj).calls nm :=
              Nat.one_le_iff_ne_zero.mpr hz
            obtain ⟨ns2, id2, hnm, hcached⟩ :=
              hwe_ok_create_cached aw cfg cache t obj nm u hres h1
            have hle := hwe_count_le aw cfg cache t obj nm
            have hrest0 : countCreateInventory
                (watchLoop aw cfg (handleWatchEvent aw cfg cache t obj).cache
                  rest).calls nm = 0 := by
              rw [hnm]
              exact watchLoop_cached_zero aw cfg rest
                (handleWatchEvent aw cfg cache t obj).cache ns2 id2 hcached
            omega
        simpa [watchLoop, hres] using key

/-- The watch loop keeps the cache's keys free of duplicates. -/
theorem watchLoop_nodup (aw : AwxResponses) (cfg : Config)
    (items : List WatchItem) :
    ∀ cache : Cache, (cache.map Prod.fst).Nodup →
      ((watchLoop aw cfg cache items).cache.map Prod.fst).Nodup := by
  induction items with
  | nil =>
    intro cache h
    simpa [watchLoop] using h
  | cons it rest ih =>
    intro cache h
    cases it with
    | cancelled => simpa [watchLoop] using h
    | chanClosed => simpa [watchLoop] using ih cache h
    | badObject => simpa [watchLoop] using ih cache h
    | msg t obj =>
      have hh := hwe_nodup aw cfg cache t obj h
      rcases hres : (handleWatchEvent aw cfg cache t obj).res with e | u
      · simpa [watchLoop, hres] using hh
      · simpa [watchLoop, hres] using
          ih (handleWatchEvent aw cfg cache t obj).cache hh

/-- Claim C4: over any sequence of sequentially processed
notifications, the engine run from its initial empty cache invokes the
gateway's inventory creation at most once per namespace's target name;
a resolution of a cached namespace returns the cached id with no
gateway call; and the cache never holds two entries for one
namespace. -/
theorem claim_C4 (aw : AwxResponses) (cfg : Config) (items : List WatchItem)
    (ns : String) (cache : Cache) (id : Int)
    (hhit : cacheLookup cache ns = some id) :
    countCreateInventory (runEngine aw cfg items).calls
      (inventoryName cfg ns) ≤ 1 ∧
    getOrCreateInventoryForNamespace aw cfg cache ns = ⟨.ok id, cache, []⟩ ∧
    ((runEngine aw cfg items).cache.map Prod.fst).Nodup := by
  refine ⟨?_, ?_, ?_⟩
  · simpa [runEngine, watchVMs] using
      watchLoop_count_le aw cfg items [] (inventoryName cfg ns)
  · unfold getOrCreateInventoryForNamespace
    rw [hhit]
  · simpa [runEngine, watchVMs] using
      watchLoop_nodup aw cfg items [] (by simp)

/-- Claim C4 witness: concrete engine run over one Added notification
and a concrete cached namespace. -/
theorem claim_C4_witness :
    countCreateInventory (runEngine awOkDemo cfgDemo [.msg .added objDemo]).calls
      (inventoryName cfgDemo "prod") ≤ 1 ∧
    getOrCreateInventoryForNamespace awOkDemo cfgDemo [("prod", 7)] "prod" =
      ⟨.ok 7, [("prod", 7)], []⟩ ∧
    ((runEngine awOkDemo cfgDemo [.msg .added objDemo]).cache.map Prod.fst).Nodup :=
  claim_C4 awOkDemo cfgDemo [.msg .added objDemo] "prod" [("prod", 7)] 7 rfl

/-! ### Idempotence infrastructure (claim C5) -/

/-- When no host matches, the upsert takes the create branch: the
server appends the new record and advances its id counter. -/
theorem upsert_create (r : RemoteState) (inv : Int) (nm : String) (v : HostVars)
    (hf : r.hosts.find? (hostMatch inv nm) = none) :
    CreateOrUpdateHost r inv nm v =
      (.ok (), ⟨r.hosts ++ [⟨r.nextId, inv, nm, v⟩], r.nextId + 1⟩) := by
  simp [CreateOrUpdateHost, getHostIDState, hf]

/-- When a host with a positive id matches, the upsert takes the patch
branch: the record with that id gets the new name and variables. -/
theorem upsert_patch (r : RemoteState) (inv : Int) (nm : String) (v : HostVars)
    (h₀ : RemoteHost) (hf : r.hosts.find? (hostMatch inv nm) = some h₀)
    (hpos : 0 < h₀.id) :
    CreateOrUpdateHost r inv nm v =
      (.ok (), { r with hosts := r.hosts.map fun h =>
        if h.id == h₀.id then { h with name := nm, vars := v } else h }) := by
  simp [CreateOrUpdateHost, getHostIDState, hf, hpos]

/-- Patching the unique matching record by id leaves exactly the
patched record as the match. -/
theorem filter_patch (inv : Int) (nm : String) (v : HostVars) :
    ∀ (l : List RemoteHost) (h₀ : RemoteHost),
      l.Pairwise (fun a b => a.id ≠ b.id) →
      l.filter (hostMatch inv nm) = [h₀] →
      (l.map fun h => if h.id == h₀.id then { h with name := nm, vars := v }
        else h).filter (hostMatch inv nm) =
        [{ h₀ with name := nm, vars := v }] := by
  intro l
  induction l with
  | nil =>
    intro h₀ _ hfil
    simp at hfil
  | cons a l ih =>
    intro h₀ hpw hfil
    have hpw' := List.pairwise_cons.mp hpw
    by_cases hpa : hostMatch inv nm a
    · rw [List.filter_cons_of_pos hpa] at hfil
      have hsplit : a = h₀ ∧ l.filter (hostMatch inv nm) = [] := by
        simpa using hfil
      obtain ⟨rfl, hfl⟩ := hsplit
      have htail : (l.map fun h =>
          if h.id == a.id then { h with name := nm, vars := v } else h) = l := by
        rw [show (l.map fun h =>
            if h.id == a.id then { h with name := nm, vars := v } else h) =
            l.map id from List.map_congr_left ?_, List.map_id]
        intro b hb
        have : a.id ≠ b.id := hpw'.1 b hb
        simp [Ne.symm this]
      have hmatch : hostMatch inv nm a = true := hpa
      simp only [hostMatch, Bool.and_eq_true, beq_iff_eq] at hmatch
      rw [List.map_cons, htail]
      simp only [beq_self_eq_true, if_true]
      rw [List.filter_cons_of_pos (by simp [hostMatch, hmatch.1]), hfl]
    · rw [List.filter_cons_of_neg hpa] at hfil
      have hmem : h₀ ∈ l :=
        List.mem_of_mem_filter (hfil ▸ List.mem_singleton_self h₀)
      have hane : a.id ≠ h₀.id := hpw'.1 h₀ hmem
      rw [List.map_cons]
      simp only [beq_eq_false_iff_ne.mpr hane, if_false, Bool.false_eq_true]
      rw [List.filter_cons_of_neg hpa]
      exact ih h₀ hpw'.2 hfil

/-- Appending a freshly numbered record preserves well-formedness. -/
theorem create_WF (r : RemoteState) (inv : Int) (nm : String) (v : HostVars)
    (hwf : r.WF) :
    RemoteState.WF ⟨r.hosts ++ [⟨r.nextId, inv, nm, v⟩], r.nextId + 1⟩ := by
  obtain ⟨hb, hpw, hn⟩ := hwf
  refine ⟨?_, ?_, ?_⟩
  · intro h hmem
    rcases List.mem_append.mp hmem with hm | hm
    · have hbh := hb h hm
      have h2 := hbh.2
      exact ⟨hbh.1, by show h.id < r.nextId + 1; omega⟩
    · have he : h = ⟨r.nextId, inv, nm, v⟩ := by simpa using hm
      subst he
      exact ⟨hn, by show r.nextId < r.nextId + 1; omega⟩
  · rw [List.pairwise_append]
    refine ⟨hpw, List.pairwise_singleton _ _, ?_⟩
    intro x hx y hy
    have hxn : x.id < r.nextId := (hb x hx).2
    have hyy : y = ⟨r.nextId, inv, nm, v⟩ := by simpa using hy
    subst hyy
    show x.id ≠ r.nextId
    omega
  · show (0 : Int) < r.nextId + 1
    omega

/-- Patching by id preserves well-formedness (the ids themselves are
untouched). -/
theorem patch_WF (r : RemoteState) (h₀ : RemoteHost) (nm : String) (v : HostVars)
    (hwf : r.WF) :
    RemoteState.WF { r with hosts := r.hosts.map fun h =>
      if h.id == h₀.id then { h with name := nm, vars := v } else h } := by
  obtain ⟨hb, hpw, hn⟩ := hwf
  have hid : ∀ h : RemoteHost,
      ((if h.id == h₀.id then { h with name := nm, vars := v } else h) :
        RemoteHost).id = h.id := by
    intro h
    by_cases hh : h.id == h₀.id <;> simp [hh]
  refine ⟨?_, ?_, hn⟩
  · intro h hmem
    rw [List.mem_map] at hmem
    obtain ⟨h', hm', rfl⟩ := hmem
    rw [hid h']
    exact hb h' hm'
  · rw [List.pairwise_map]
    refine List.Pairwise.imp ?_ hpw
    intro a b hab
    rw [hid a, hid b]
    exact hab

/-- The upsert succeeds, keeps the remote state well-formed, and
leaves exactly one matching host record carrying the written
variables. -/
theorem upsert_normalizes (r : RemoteState) (inv : Int) (nm : String)
    (v : HostVars) (hwf : r.WF)
    (hcount : (matchingHosts r inv nm).length ≤ 1) :
    (CreateOrUpdateHost r inv nm v).1 = .ok () ∧
    (CreateOrUpdateHost r inv nm v).2.WF ∧
    (matchingHosts (CreateOrUpdateHost r inv nm v).2 inv nm).map
      RemoteHost.vars = [v] := by
  rcases hf : r.hosts.find? (hostMatch inv nm) with _ | h₀
  · rw [upsert_create r inv nm v hf]
    refine ⟨rfl, create_WF r inv nm v hwf, ?_⟩
    have hfil : r.hosts.filter (hostMatch inv nm) = [] := by
      rw [List.filter_eq_nil_iff]
      exact List.find?_eq_none.mp hf
    simp [matchingHosts, List.filter_append, hfil, hostMatch]
  · have hmem := List.mem_of_find?_eq_some hf
    have hpa := List.find?_some hf
    have hpos : 0 < h₀.id := (hwf.1 h₀ hmem).1
    have hmemf : h₀ ∈ r.hosts.filter (hostMatch inv nm) :=
      List.mem_filter.mpr ⟨hmem, hpa⟩
    have hcount' : (r.hosts.filter (hostMatch inv nm)).length ≤ 1 := by
      simpa [matchingHosts] using hcount
    have hone : r.hosts.filter (hostMatch inv nm) = [h₀] := by
      rcases hl : r.hosts.filter (hostMatch inv nm) with _ | ⟨x, xs⟩
      · rw [hl] at hmemf
        exact absurd hmemf (by simp)
      · rw [hl] at hmemf hcount'
        have hxs : xs = [] := by
          rw [List.length_cons] at hcount'
          have hz : xs.length = 0 := by omega
          exact List.eq_nil_of_length_eq_zero hz
        subst hxs
        have hx : h₀ = x := by simpa using hmemf
        subst hx
        rfl
    rw [upsert_patch r inv nm v h₀ hf hpos]
    refine ⟨rfl, patch_WF r h₀ nm v hwf, ?_⟩
    simp only [matchingHosts]
    rw [filter_patch inv nm v r.hosts h₀ hwf.2.1 hone]
    simp

/-- Deleting a host that has no matching record is a successful no-op
on the remote state. -/
theorem delete_noop (r : RemoteState) (inv : Int) (nm : String)
    (hfil : r.hosts.filter (hostMatch inv nm) = []) :
    DeleteHostState r inv nm = (.ok (), r) := by
  have hf : r.hosts.find? (hostMatch inv nm) = none := by
    rw [List.find?_eq_none]
    intro x hx hpx
    have : x ∈ r.hosts.filter (hostMatch inv nm) :=
      List.mem_filter.mpr ⟨hx, hpx⟩
    rw [hfil] at this
    simp at this
  simp [DeleteHostState, getHostIDState, hf]

/-- A filter returning one element means the search by the same
predicate finds that element. -/
theorem filter_singleton_find (p : RemoteHost → Bool) (h₀ : RemoteHost) :
    ∀ l : List RemoteHost, l.filter p = [h₀] → l.find? p = some h₀ := by
  intro l
  induction l with
  | nil => intro hfil; simp at hfil
  | cons a l ih =>
    intro hfil
    by_cases hpa : p a
    · rw [List.filter_cons_of_pos hpa] at hfil
      have : a = h₀ ∧ l.filter p = [] := by simpa using hfil
      rw [List.find?_cons_of_pos _ hpa, this.1]
    · rw [List.filter_cons_of_neg hpa] at hfil
      rw [List.find?_cons_of_neg _ hpa]
      exact ih hfil

/-- Deleting the unique matching host succeeds and leaves no matching
record. -/
theorem delete_removes (r : RemoteState) (inv : Int) (nm : String)
    (hwf : r.WF) (h₀ : RemoteHost)
    (hfil : r.hosts.filter (hostMatch inv nm) = [h₀]) :
    (DeleteHostState r inv nm).1 = .ok () ∧
    matchingHosts (DeleteHostState r inv nm).2 inv nm = [] := by
  have hf := filter_singleton_find (hostMatch inv nm) h₀ r.hosts hfil
  have hmem := List.mem_of_find?_eq_some hf
  have hpos : 0 < h₀.id := (hwf.1 h₀ hmem).1
  have hne : h₀.id ≠ 0 := by omega
  have hid : getHostIDState r inv nm = h₀.id := by simp [getHostIDState, hf]
  constructor
  · simp [DeleteHostState, hid, hne]
  · simp only [DeleteHostState, hid]
    rw [if_neg hne]
    simp only [matchingHosts]
    rw [List.filter_filter, List.filter_eq_nil_iff]
    intro a ha hcond
    simp only [Bool.and_eq_true, bne_iff_ne, ne_eq] at hcond
    have : a ∈ r.hosts.filter (hostMatch inv nm) :=
      List.mem_filter.mpr ⟨ha, hcond.1⟩
    rw [hfil] at this
    have : a = h₀ := by simpa using this
    exact hcond.2 (by rw [this])

/-- Claim C5: host upsert and delete are idempotent over the remote
state — an upsert succeeds and, applied twice with the same input,
leaves exactly one matching host record carrying the latest variables;
a delete of an absent host is a successful no-op, and a delete always
succeeds and leaves no matching record. -/
theorem claim_C5 (r : RemoteState) (inv : Int) (nm : String) (v : HostVars)
    (hwf : r.WF) (hcount : (matchingHosts r inv nm).length ≤ 1) :
    (CreateOrUpdateHost r inv nm v).1 = .ok () ∧
    (matchingHosts
        (CreateOrUpdateHost (CreateOrUpdateHost r inv nm v).2 inv nm v).2
        inv nm).map RemoteHost.vars = [v] ∧
    (matchingHosts r inv nm = [] → DeleteHostState r inv nm = (.ok (), r)) ∧
    (DeleteHostState r inv nm).1 = .ok () ∧
    matchingHosts (DeleteHostState r inv nm).2 inv nm = [] := by
  have W1 := upsert_normalizes r inv nm v hwf hcount
  have hcount1 : (matchingHosts (CreateOrUpdateHost r inv nm v).2 inv nm).length
      ≤ 1 := by
    have := congrArg List.length W1.2.2
    simp at this
    omega
  have W2 := upsert_normalizes (CreateOrUpdateHost r inv nm v).2 inv nm v
    W1.2.1 hcount1
  have hdel : (DeleteHostState r inv nm).1 = .ok () ∧
      matchingHosts (DeleteHostState r inv nm).2 inv nm = [] := by
    rcases hl : matchingHosts r inv nm with _ | ⟨h₀, hs⟩
    · have hd := delete_noop r inv nm (by simpa [matchingHosts] using hl)
      constructor
      · rw [hd]
      · rw [hd]
        simpa [matchingHosts] using hl
    · have hhs : hs = [] := by
        rw [hl, List.length_cons] at hcount
        have hz : hs.length = 0 := by omega
        exact List.eq_nil_of_length_eq_zero hz
      subst hhs
      exact delete_removes r inv nm hwf h₀ (by simpa [matchingHosts] using hl)
  refine ⟨W1.1, W2.2.2, fun hempty =>
    delete_noop r inv nm (by simpa [matchingHosts] using hempty), hdel⟩

/-- Claim C5 witness: concrete double upsert and delete against an
empty well-formed remote. -/
theorem claim_C5_witness :
    (CreateOrUpdateHost ⟨[], 1⟩ 42 "vm1" ⟨"vm1", "prod", [], "10.0.0.5"⟩).1 =
      .ok () ∧
    (matchingHosts
        (CreateOrUpdateHost
          (CreateOrUpdateHost ⟨[], 1⟩ 42 "vm1"
            ⟨"vm1", "prod", [], "10.0.0.5"⟩).2 42 "vm1"
          ⟨"vm1", "prod", [], "10.0.0.5"⟩).2 42 "vm1").map RemoteHost.vars =
      [⟨"vm1", "prod", [], "10.0.0.5"⟩] ∧
    DeleteHostState ⟨[], 1⟩ 42 "vm1" = (.ok (), ⟨[], 1⟩) ∧
    (DeleteHostState ⟨[], 1⟩ 42 "vm1").1 = .ok () ∧
    matchingHosts (DeleteHostState ⟨[], 1⟩ 42 "vm1").2 42 "vm1" = [] :=
  ⟨(claim_C5 ⟨[], 1⟩ 42 "vm1" ⟨"vm1", "prod", [], "10.0.0.5"⟩
      ⟨by simp, by simp [List.Pairwise.nil], by norm_num⟩
      (by simp [matchingHosts])).1,
    (claim_C5 ⟨[], 1⟩ 42 "vm1" ⟨"vm1", "prod", [], "10.0.0.5"⟩
      ⟨by simp, by simp [List.Pairwise.nil], by norm_num⟩
      (by simp [matchingHosts])).2.1,
    (claim_C5 ⟨[], 1⟩ 42 "vm1" ⟨"vm1", "prod", [], "10.0.0.5"⟩
      ⟨by simp, by simp [List.Pairwise.nil], by norm_num⟩
      (by simp [matchingHosts])).2.2.1 (by simp [matchingHosts]),
    (claim_C5 ⟨[], 1⟩ 42 "vm1" ⟨"vm1", "prod", [], "10.0.0.5"⟩
      ⟨by simp, by simp [List.Pairwise.nil], by norm_num⟩
      (by simp [matchingHosts])).2.2.2⟩

end AwxInventory
